import Mathlib

/-!
Verification of the short-strangle trading bot (files strategy.py and
delta_client.py) against its specification.

Modelling conventions:
* JSON-like API values are the inductive type `Val`; Python floats are
  modelled by exact rationals.
* Python dictionaries are association lists; assignment overwrites, so
  lookups take the last matching entry.
* Fallible operations return `Option` or `Except Err`.
* Wall-clock time and the network are external: the run takes an
  environment holding the expiry tag computed by the date helper, the
  ticker responses, the product list and the outcome of each order
  placement attempt.
-/

namespace StrangleBot

/-- JSON-like value, the shape of everything the exchange API returns. -/
inductive Val where
  | vnull
  | vnum (q : ℚ)
  | vstr (s : String)
  | varr (elems : List Val)
  | vdict (fields : List (String × Val))

/-- Python dict lookup on an association list: assignment overwrites, so
the last binding of a key wins. -/
def alookup {α : Type} (l : List (String × α)) (k : String) : Option α :=
  l.foldl (fun acc p => if p.1 = k then some p.2 else acc) none

/-- Lookup of a key in a `Val`; `none` when the value is not a dict or
the key is absent (Python dict.get returning None). -/
def dictLookup : Val → String → Option Val
  | .vdict l, k => alookup l k
  | _, _ => none

/-- Numeric value of a decimal digit character. -/
def digitVal (c : Char) : ℕ := c.toNat - 48

/-- Value of a digit string read in base 10. -/
def digitsToNat (l : List Char) : ℕ := l.foldl (fun a c => 10 * a + digitVal c) 0

/-- Model of the Python float() builtin on strings, covering the forms the
bot can meet: optional sign, integer part, optional fractional part.
(Exponent, inf/nan, whitespace and underscore forms are outside the
modelled input domain.) -/
def pyFloatChars (l : List Char) : Option ℚ :=
  let core : List Char → Option ℚ := fun m =>
    let ip := m.takeWhile Char.isDigit
    let rest := m.dropWhile Char.isDigit
    match rest with
    | [] => if ip.isEmpty then none else some (digitsToNat ip : ℚ)
    | '.' :: fr =>
      let fp := fr.takeWhile Char.isDigit
      let rest2 := fr.dropWhile Char.isDigit
      if rest2.isEmpty then
        if ip.isEmpty && fp.isEmpty then none
        else some ((digitsToNat ip : ℚ) + (digitsToNat fp : ℚ) / (10 : ℚ) ^ fp.length)
      else none
    | _ => none
  match l with
  | '+' :: r => core r
  | '-' :: r => (core r).map (fun q => -q)
  | r => core r

/-- float() on a string. -/
def pyFloatStr (s : String) : Option ℚ := pyFloatChars s.toList

/-- float() coercion of a JSON value: numbers pass through, strings are
parsed, anything else (None, lists, dicts) raises, modelled as `none`. -/
def pyFloatVal : Val → Option ℚ
  | .vnum q => some q
  | .vstr s => pyFloatStr s
  | _ => none

/-- Python truthiness of a JSON value. -/
def pyTruthy : Val → Bool
  | .vnull => false
  | .vnum q => decide (q ≠ 0)
  | .vstr s => decide (s ≠ "")
  | .varr l => !l.isEmpty
  | .vdict l => !l.isEmpty

/-- Truthiness of an optional value (dict.get result): None is falsy. -/
def pyTruthyOpt : Option Val → Bool
  | none => false
  | some v => pyTruthy v

/-- strategy._normalize_result: take the result field whenever the key is
present (even when its value is falsy), else the object itself. -/
def normalize_result (t : Val) : Val :=
  match dictLookup t "result" with
  | some v => v
  | none => t

/-- One step of the price-field fallthrough: the field's value coerced by
float(), with absent keys, None values and non-coercible values all
collapsing to `none` (the code skips each of those silently). -/
def fieldNum (t : Val) (k : String) : Option ℚ := (dictLookup t k).bind pyFloatVal

/-- The spot-price extraction loop of run_short_strangle: first of close,
last_price, mark_price that is present and numerically coercible. -/
def priceFromFields (t : Val) : Option ℚ :=
  match fieldNum t "close" with
  | some q => some q
  | none =>
    match fieldNum t "last_price" with
    | some q => some q
    | none => fieldNum t "mark_price"

/-- The wrapper unwrapping of _current_option_premium, literally
t.get("result") or t: falls back to the whole record when the result
value is falsy (unlike _normalize_result). -/
def premium_unwrap (t : Val) : Val :=
  match dictLookup t "result" with
  | some v => if pyTruthy v then v else t
  | none => t

/-- strategy._current_option_premium, price-extraction part: close first
(skipping a None or non-coercible value), then last_price, then
mark_price on the unwrapped record. -/
def current_option_premium (t : Val) : Option ℚ :=
  match fieldNum (premium_unwrap t) "close" with
  | some q => some q
  | none =>
    match fieldNum (premium_unwrap t) "last_price" with
    | some q => some q
    | none => fieldNum (premium_unwrap t) "mark_price"

/-- Python int() on a float: truncation toward zero. -/
def pyInt (q : ℚ) : ℤ := if 0 ≤ q then ⌊q⌋ else ⌈q⌉

/-- Round to nearest integer, ties to even: the rounding Python round()
uses. -/
def roundHalfEvenInt (q : ℚ) : ℤ :=
  if q - (⌊q⌋ : ℚ) < 1 / 2 then ⌊q⌋
  else if 1 / 2 < q - (⌊q⌋ : ℚ) then ⌊q⌋ + 1
  else if ⌊q⌋ % 2 = 0 then ⌊q⌋ else ⌊q⌋ + 1

/-- Python round(q, 2). -/
def pyRound2 (q : ℚ) : ℚ := (roundHalfEvenInt (q * 100) : ℚ) / 100

/-- Stop price of a leg: round(entry_premium * 2, 2) from
run_short_strangle. -/
def stop_price (premium : ℚ) : ℚ := pyRound2 (premium * 2)

/-- Python str() of a nonnegative float that is a multiple of 1/100 (the
only floats the bot renders into order bodies): shortest decimal form,
with at least one fractional digit. -/
def floatStr (q : ℚ) : String :=
  let n : ℤ := ⌊q⌋
  let frac : ℤ := ⌊q * 100⌋ - 100 * n
  if frac = 0 then toString n ++ ".0"
  else if frac % 10 = 0 then toString n ++ "." ++ toString (frac / 10)
  else toString n ++ "." ++ (if frac < 10 then "0" else "") ++ toString frac

/-- Python str.split on a single dash, character-list level. Always
returns at least one (possibly empty) part. -/
def splitDashChars : List Char → List (List Char)
  | [] => [[]]
  | c :: cs =>
    match splitDashChars cs with
    | [] => [[c]]
    | p :: ps => if c = '-' then [] :: p :: ps else (c :: p) :: ps

/-- symbol.split("-") as a list of strings. -/
def splitDash (s : String) : List String := (splitDashChars s.toList).map String.mk

/-- strategy._parse_strike_from_symbol: float(symbol.split("-")[2]) with
every failure (missing index or unparsable text) collapsing to None. -/
def parse_strike_from_symbol (symbol : String) : Option ℚ :=
  match (splitDash symbol).get? 2 with
  | some str => pyFloatStr str
  | none => none

/-- A product record as the strategy uses it: its symbol field (a string
when present) and its id field. Other fields are irrelevant to the run. -/
structure Product where
  symbol : Option String
  id : Option Val

/-- strategy._extract_btc_option_products: keep products whose symbol is
nonempty, contains "BTC", splits on dashes into at least 4 parts with
part 1 = "BTC", part 3 = the expiry tag, part 0 in C/P, and a part 2
accepted by float(). The result maps each kept symbol to its record
(dict insertion order with overwrite, hence last-wins lookup).
The per-product filter body is the standalone function productEntry. -/
def productEntry (expiry : String) (p : Product) : Option (String × Product) :=
  if (p.symbol).getD "" = "" then none
  else if ¬ ("BTC".toList <:+: ((p.symbol).getD "").toList) then none
  else if (splitDash ((p.symbol).getD "")).length < 4 then none
  else if (splitDash ((p.symbol).getD "")).getD 1 "" ≠ "BTC" then none
  else if (splitDash ((p.symbol).getD "")).getD 3 "" ≠ expiry then none
  else if (splitDash ((p.symbol).getD "")).getD 0 "" ≠ "C"
          ∧ (splitDash ((p.symbol).getD "")).getD 0 "" ≠ "P" then none
  else if (pyFloatStr ((splitDash ((p.symbol).getD "")).getD 2 "")).isSome then
    some ((p.symbol).getD "", p)
  else none

def extract_btc_option_products (products : List Product) (expiry : String) :
    List (String × Product) :=
  products.filterMap (productEntry expiry)

/-- Keys of an association list. -/
def keysOf {α : Type} (l : List (String × α)) : List String := l.map Prod.fst

/-- Strike collection of run_short_strangle: parse each discovered
symbol, keep truthy results (so 0.0 and None both drop out), dedup and
sort ascending. -/
def collect_strikes (syms : List String) : List ℚ :=
  ((syms.filterMap (fun sym =>
      match parse_strike_from_symbol sym with
      | some s => if s = 0 then none else some s
      | none => none)).dedup).insertionSort (· ≤ ·)

/-- Python min(key=f) over a nonempty list fed as head and tail: the
first element attaining the minimal key (replacement only on strict
decrease). -/
def pyMinKey (f : ℚ → ℚ) (x : ℚ) : List ℚ → ℚ
  | [] => x
  | y :: ys => pyMinKey f (if f y < f x then y else x) ys

/-- strategy._pick_strikes: call strike nearest spot*1.01, put strike
nearest spot*0.99; Python min raises on an empty list, modelled as
`none`. -/
def pick_strikes (cmpPrice : ℚ) : List ℚ → Option (ℚ × ℚ)
  | [] => none
  | s :: rest =>
    some (pyMinKey (fun t => |t - cmpPrice * 1.01|) s rest,
          pyMinKey (fun t => |t - cmpPrice * 0.99|) s rest)

/-- Reconstructed option symbol of run_short_strangle: the f-string
(cp)-BTC-(int(strike))-(expiry). -/
def option_symbol (cp : String) (strike : ℚ) (expiry : String) : String :=
  cp ++ "-BTC-" ++ toString (pyInt strike) ++ "-" ++ expiry

/-- The error taxonomy of the run (each RuntimeError of the source,
under its specification name). -/
inductive Err where
  | priceUnavailable
  | noContractsForExpiry
  | noStrikesParsed
  | selectedContractMissing
  | productIdMissing
  | premiumUnavailable (symbol : String)
  | orderPlacementFailed
  deriving DecidableEq

/-- Body of a POST /v2/orders request as run_short_strangle builds it. -/
structure OrderBody where
  order_type : String
  size : ℕ
  side : String
  product_id : Val
  stop_price : Option String

/-- The run's external world: the underlying symbol argument, the expiry
tag the date helper computes at run time, the ticker response per symbol
(client.get_ticker_symbol), the normalized product list
(client.get_products), and for the n-th order placement attempt whether
it succeeds and with which response. -/
structure Env where
  underlying : String
  todayTag : String
  ticker : String → Val
  products : List Product
  placeOk : ℕ → Bool
  placeResp : ℕ → Val

/-- Step 1 of the run: spot resolution on the underlying's ticker. -/
def spotPhase (t : Val) : Except Err ℚ :=
  match priceFromFields (normalize_result t) with
  | some q => .ok q
  | none => .error .priceUnavailable

/-- Premium lookup for one selected option symbol. -/
def premiumResolve (t : Val) (symbol : String) : Except Err ℚ :=
  match current_option_premium t with
  | some q => .ok q
  | none => .error (.premiumUnavailable symbol)

/-- Steps 2-5 of the run, given the resolved spot price: expiry tag,
discovery, strike collection and selection, symbol reconstruction,
presence validation and product-id resolution. Returns both symbols and
both product ids. -/
def selectPhase (env : Env) (cmpPrice : ℚ) : Except Err (String × String × Val × Val) :=
  if (extract_btc_option_products env.products env.todayTag).isEmpty then
    .error .noContractsForExpiry
  else if (collect_strikes (keysOf
      (extract_btc_option_products env.products env.todayTag))).isEmpty then
    .error .noStrikesParsed
  else
    match pick_strikes cmpPrice (collect_strikes (keysOf
        (extract_btc_option_products env.products env.todayTag))) with
    | none => .error .noStrikesParsed
    | some (ceStrike, peStrike) =>
      match alookup (extract_btc_option_products env.products env.todayTag)
              (option_symbol "C" ceStrike env.todayTag),
            alookup (extract_btc_option_products env.products env.todayTag)
              (option_symbol "P" peStrike env.todayTag) with
      | some ceProd, some peProd =>
        if pyTruthyOpt ceProd.id && pyTruthyOpt peProd.id then
          .ok (option_symbol "C" ceStrike env.todayTag,
               option_symbol "P" peStrike env.todayTag,
               (ceProd.id).getD .vnull, (peProd.id).getD .vnull)
        else .error .productIdMissing
      | _, _ => .error .selectedContractMissing

/-- Entry order body: market sell of size 1 for a product id. -/
def entryBody (pid : Val) : OrderBody :=
  { order_type := "market_order", size := 1, side := "sell", product_id := pid,
    stop_price := none }

/-- Stop order body: stop buy of size 1 at the stringified stop price. -/
def stopBody (pid : Val) (sp : ℚ) : OrderBody :=
  { order_type := "stop_order", size := 1, side := "buy", product_id := pid,
    stop_price := some (floatStr sp) }

/-- Steps 7-8 of the run: the four order placements, strictly in the
order CE entry, PE entry, CE stop, PE stop. The second component lists
the placement calls actually issued; a failed call raises, so later
bodies are never issued and nothing is rolled back. The first component
carries the labelled responses the report appends. -/
def placePhase (env : Env) (cePid pePid : Val) (cePremium pePremium : ℚ) :
    Except Err (List (String × Val)) × List OrderBody :=
  if env.placeOk 0 then
    if env.placeOk 1 then
      if env.placeOk 2 then
        if env.placeOk 3 then
          (.ok [("CE entry", env.placeResp 0), ("PE entry", env.placeResp 1),
                ("CE stop", env.placeResp 2), ("PE stop", env.placeResp 3)],
           [entryBody cePid, entryBody pePid, stopBody cePid (stop_price cePremium),
            stopBody pePid (stop_price pePremium)])
        else (.error .orderPlacementFailed,
          [entryBody cePid, entryBody pePid, stopBody cePid (stop_price cePremium),
           stopBody pePid (stop_price pePremium)])
      else (.error .orderPlacementFailed,
        [entryBody cePid, entryBody pePid, stopBody cePid (stop_price cePremium)])
    else (.error .orderPlacementFailed, [entryBody cePid, entryBody pePid])
  else (.error .orderPlacementFailed, [entryBody cePid])

/-- The data of the final Telegram report (step 9); the textual
formatting itself is outside the verified scope). -/
structure Report where
  expiry : String
  cmpPrice : ℚ
  ceSymbol : String
  peSymbol : String
  cePremium : ℚ
  pePremium : ℚ
  ceStopPrice : ℚ
  peStopPrice : ℚ
  orders : List (String × Val)

/-- Outcome of one run: the result (report or first error), the option
symbols whose tickers were fetched for premium lookup, and the order
placement calls issued, in order. -/
structure RunOut where
  result : Except Err Report
  premiumFetches : List String
  orders : List OrderBody

/-- strategy.run_short_strangle: the whole pipeline, each step
short-circuiting the rest on failure. -/
def run_short_strangle (env : Env) : RunOut :=
  match spotPhase (env.ticker env.underlying) with
  | .error e => ⟨.error e, [], []⟩
  | .ok cmpPrice =>
    match selectPhase env cmpPrice with
    | .error e => ⟨.error e, [], []⟩
    | .ok (ceSymbol, peSymbol, cePid, pePid) =>
      match premiumResolve (env.ticker ceSymbol) ceSymbol with
      | .error e => ⟨.error e, [ceSymbol], []⟩
      | .ok cePremium =>
        match premiumResolve (env.ticker peSymbol) peSymbol with
        | .error e => ⟨.error e, [ceSymbol, peSymbol], []⟩
        | .ok pePremium =>
          match placePhase env cePid pePid cePremium pePremium with
          | (.error e, tr) => ⟨.error e, [ceSymbol, peSymbol], tr⟩
          | (.ok resps, tr) =>
            ⟨.ok { expiry := env.todayTag, cmpPrice := cmpPrice,
                   ceSymbol := ceSymbol, peSymbol := peSymbol,
                   cePremium := cePremium, pePremium := pePremium,
                   ceStopPrice := stop_price cePremium,
                   peStopPrice := stop_price pePremium,
                   orders := resps },
             [ceSymbol, peSymbol], tr⟩

/-! ### The signed API client (delta_client.py)

HMAC-SHA256 as the Python standard library computes it, over byte lists
(bytes are naturals below 256, words naturals below 2^32). -/

/-- Truncation to a 32-bit word. -/
def w32 (n : ℕ) : ℕ := n % 4294967296

/-- 32-bit rotate right. -/
def rotr (n x : ℕ) : ℕ := w32 ((x >>> n) ||| (x <<< (32 - n)))

/-- SHA-256 choice function. -/
def shaCh (x y z : ℕ) : ℕ := (x &&& y) ^^^ ((x ^^^ 4294967295) &&& z)

/-- SHA-256 majority function. -/
def shaMaj (x y z : ℕ) : ℕ := (x &&& y) ^^^ (x &&& z) ^^^ (y &&& z)

/-- SHA-256 big sigma 0. -/
def bSig0 (x : ℕ) : ℕ := rotr 2 x ^^^ rotr 13 x ^^^ rotr 22 x

/-- SHA-256 big sigma 1. -/
def bSig1 (x : ℕ) : ℕ := rotr 6 x ^^^ rotr 11 x ^^^ rotr 25 x

/-- SHA-256 small sigma 0. -/
def sSig0 (x : ℕ) : ℕ := rotr 7 x ^^^ rotr 18 x ^^^ (x >>> 3)

/-- SHA-256 small sigma 1. -/
def sSig1 (x : ℕ) : ℕ := rotr 17 x ^^^ rotr 19 x ^^^ (x >>> 10)

/-- The 64 SHA-256 round constants. -/
def shaK : List ℕ :=
  [1116352408, 1899447441, 3049323471, 3921009573, 961987163, 1508970993,
   2453635748, 2870763221, 3624381080, 310598401, 607225278, 1426881987,
   1925078388, 2162078206, 2614888103, 3248222580, 3835390401, 4022224774,
   264347078, 604807628, 770255983, 1249150122, 1555081692, 1996064986,
   2554220882, 2821834349, 2952996808, 3210313671, 3336571891, 3584528711,
   113926993, 338241895, 666307205, 773529912, 1294757372, 1396182291,
   1695183700, 1986661051, 2177026350, 2456956037, 2730485921, 2820302411,
   3259730800, 3345764771, 3516065817, 3600352804, 4094571909, 275423344,
   430227734, 506948616, 659060556, 883997877, 958139571, 1322822218,
   1537002063, 1747873779, 1955562222, 2024104815, 2227730452, 2361852424,
   2428436474, 2756734187, 3204031479, 3329325298]

/-- The 8-word SHA-256 working state. -/
structure H8 where
  a : ℕ
  b : ℕ
  c : ℕ
  d : ℕ
  e : ℕ
  f : ℕ
  g : ℕ
  h : ℕ

/-- SHA-256 initial hash value. -/
def shaInit : H8 :=
  ⟨1779033703, 3144134277, 1013904242, 2773480762,
   1359893119, 2600822924, 528734635, 1541459225⟩

/-- One SHA-256 compression round. -/
def shaStep (s : H8) (k w : ℕ) : H8 :=
  let t1 := w32 (s.h + bSig1 s.e + shaCh s.e s.f s.g + k + w)
  let t2 := w32 (bSig0 s.a + shaMaj s.a s.b s.c)
  ⟨w32 (t1 + t2), s.a, s.b, s.c, w32 (s.d + t1), s.e, s.f, s.g⟩

/-- Message-schedule extension: append the next scheduled word n times. -/
def schedule : List ℕ → ℕ → List ℕ
  | ws, 0 => ws
  | ws, n + 1 =>
    schedule (ws ++ [w32 (sSig1 (ws.getD (ws.length - 2) 0) + ws.getD (ws.length - 7) 0
      + sSig0 (ws.getD (ws.length - 15) 0) + ws.getD (ws.length - 16) 0)]) n

/-- Compress one 16-word block into the state. -/
def processBlock (s : H8) (block : List ℕ) : H8 :=
  let t := (shaK.zip (schedule block 48)).foldl (fun st p => shaStep st p.1 p.2) s
  ⟨w32 (s.a + t.a), w32 (s.b + t.b), w32 (s.c + t.c), w32 (s.d + t.d),
   w32 (s.e + t.e), w32 (s.f + t.f), w32 (s.g + t.g), w32 (s.h + t.h)⟩

/-- Big-endian grouping of bytes into 32-bit words. -/
def chunk4 : List ℕ → List ℕ
  | a :: b :: c :: d :: rest => (a * 16777216 + b * 65536 + c * 256 + d) :: chunk4 rest
  | _ => []

/-- Grouping of words into 16-word blocks. -/
def chunk16 : List ℕ → List (List ℕ)
  | w0 :: w1 :: w2 :: w3 :: w4 :: w5 :: w6 :: w7 ::
    w8 :: w9 :: w10 :: w11 :: w12 :: w13 :: w14 :: w15 :: rest =>
    [w0, w1, w2, w3, w4, w5, w6, w7, w8, w9, w10, w11, w12, w13, w14, w15] :: chunk16 rest
  | _ => []

/-- 64-bit big-endian encoding of the message bit length. -/
def lenBE8 (n : ℕ) : List ℕ :=
  [n / 72057594037927936 % 256, n / 281474976710656 % 256, n / 1099511627776 % 256,
   n / 4294967296 % 256, n / 16777216 % 256, n / 65536 % 256, n / 256 % 256, n % 256]

/-- SHA-256 padding: a 0x80 byte, zeros to 56 mod 64, the bit length. -/
def shaPad (msg : List ℕ) : List ℕ :=
  msg ++ 128 :: (List.replicate ((119 - msg.length % 64) % 64) 0 ++ lenBE8 (8 * msg.length))

/-- Big-endian bytes of a 32-bit word. -/
def wordBytes (w : ℕ) : List ℕ := [w / 16777216 % 256, w / 65536 % 256, w / 256 % 256, w % 256]

/-- SHA-256 of a byte list. -/
def sha256 (msg : List ℕ) : List ℕ :=
  let s := (chunk16 (chunk4 (shaPad msg))).foldl processBlock shaInit
  wordBytes s.a ++ wordBytes s.b ++ wordBytes s.c ++ wordBytes s.d ++ wordBytes s.e
    ++ wordBytes s.f ++ wordBytes s.g ++ wordBytes s.h

/-- Lowercase hex digit. -/
def hexChar (n : ℕ) : Char := if n < 10 then Char.ofNat (48 + n) else Char.ofNat (87 + n)

/-- Two lowercase hex digits of a byte. -/
def byteHexChars (b : ℕ) : List Char := [hexChar (b / 16), hexChar (b % 16)]

/-- hexdigest() of a byte list. -/
def hexStr (bytes : List ℕ) : String := String.mk (List.flatten (bytes.map byteHexChars))

/-- HMAC-SHA256 (hmac.new(key, msg, hashlib.sha256)): hash over-long
keys, pad to the 64-byte block, inner pad 0x36, outer pad 0x5c. -/
def hmacSha256 (key msg : List ℕ) : List ℕ :=
  sha256 (((if 64 < key.length then sha256 key else key)
      ++ List.replicate (64 - (if 64 < key.length then sha256 key else key).length) 0).map
        (fun b => b ^^^ 92)
    ++ sha256 (((if 64 < key.length then sha256 key else key)
      ++ List.replicate (64 - (if 64 < key.length then sha256 key else key).length) 0).map
        (fun b => b ^^^ 54)
      ++ msg))

/-- UTF-8 bytes of one character (str.encode()). -/
def charUTF8 (c : Char) : List ℕ :=
  if c.toNat < 128 then [c.toNat]
  else if c.toNat < 2048 then [192 + c.toNat / 64, 128 + c.toNat % 64]
  else if c.toNat < 65536 then
    [224 + c.toNat / 4096, 128 + c.toNat / 64 % 64, 128 + c.toNat % 64]
  else [240 + c.toNat / 262144, 128 + c.toNat / 4096 % 64, 128 + c.toNat / 64 % 64,
        128 + c.toNat % 64]

/-- UTF-8 bytes of a string (str.encode()). -/
def strBytes (s : String) : List ℕ := (s.toList.map charUTF8).flatten

/-- Bytes quote_plus leaves unescaped: ASCII alphanumerics and the
characters underscore, dot, dash, tilde. -/
def pctSafe (b : ℕ) : Bool :=
  decide ((48 ≤ b ∧ b ≤ 57) ∨ (65 ≤ b ∧ b ≤ 90) ∨ (97 ≤ b ∧ b ≤ 122)
    ∨ b = 45 ∨ b = 46 ∨ b = 95 ∨ b = 126)

/-- Uppercase hex digit (percent escapes use uppercase). -/
def hexCharUpper (n : ℕ) : Char := if n < 10 then Char.ofNat (48 + n) else Char.ofNat (55 + n)

/-- quote_plus on one byte: space to plus, safe bytes verbatim, percent
escape otherwise. -/
def pctEncodeByte (b : ℕ) : List Char :=
  if b = 32 then ['+']
  else if pctSafe b then [Char.ofNat b]
  else ['%', hexCharUpper (b / 16), hexCharUpper (b % 16)]

/-- urllib.parse.quote_plus of a string. -/
def quotePlus (s : String) : String := String.mk (((strBytes s).map pctEncodeByte).flatten)

/-- urllib.parse.urlencode of a parameter list: k=v pairs joined by
ampersands, keys and values quote_plus-escaped. -/
def urlencode (params : List (String × String)) : String :=
  String.intercalate "&" (params.map (fun kv => quotePlus kv.1 ++ "=" ++ quotePlus kv.2))

/-- json.dumps of a number: integers without a decimal point, other
values in float notation. -/
def jsonNum (q : ℚ) : String := if q.den = 1 then toString q.num else floatStr q

/-- JSON escaping of one character (quote and backslash; control-char
escapes are outside the modelled domain). -/
def jsonEscChar (c : Char) : List Char :=
  if c = '"' then ['\\', '"'] else if c = '\\' then ['\\', '\\'] else [c]

/-- json.dumps of a string: double quotes around the escaped text. -/
def jsonQuote (s : String) : String :=
  "\"" ++ String.mk ((s.toList.map jsonEscChar).flatten) ++ "\""

mutual

/-- json.dumps of a value, with Python's default separators (a comma and
a space between items, a colon and a space after keys). -/
def jsonDumpsVal : Val → String
  | .vnull => "null"
  | .vnum q => jsonNum q
  | .vstr s => jsonQuote s
  | .varr l => "[" ++ jsonDumpsList l ++ "]"
  | .vdict l => "\x7b" ++ jsonDumpsFields l ++ "\x7d"

/-- json.dumps of the items of an array, comma-space separated. -/
def jsonDumpsList : List Val → String
  | [] => ""
  | [v] => jsonDumpsVal v
  | v :: v2 :: rest => jsonDumpsVal v ++ ", " ++ jsonDumpsList (v2 :: rest)

/-- json.dumps of the fields of an object, comma-space separated. -/
def jsonDumpsFields : List (String × Val) → String
  | [] => ""
  | [(k, v)] => jsonQuote k ++ ": " ++ jsonDumpsVal v
  | (k, v) :: kv :: rest => jsonQuote k ++ ": " ++ jsonDumpsVal v ++ ", "
      ++ jsonDumpsFields (kv :: rest)

end

/-- DeltaClient._sign: hex HMAC-SHA256 of the secret over
method + timestamp + path + query_string + payload. -/
def delta_sign (apiSecret method path queryString payload timestamp : String) : String :=
  hexStr (hmacSha256 (strBytes apiSecret)
    (strBytes (method ++ timestamp ++ path ++ queryString ++ payload)))

/-- The payload string DeltaClient._request signs and sends:
json.dumps(body) if body else the empty string (None and the empty dict
are both falsy). -/
def requestPayload : Option (List (String × Val)) → String
  | none => ""
  | some [] => ""
  | some body => jsonDumpsVal (.vdict body)

/-- The query string DeltaClient._request signs: a question mark plus the
urlencoded parameters, or the empty string when there are none. -/
def requestQueryString (params : List (String × String)) : String :=
  if params.isEmpty then "" else "?" ++ urlencode params

/-- The signature DeltaClient._request sends on an authenticated call,
assembled exactly as the code does. -/
def request_signature (apiSecret method path : String) (params : List (String × String))
    (body : Option (List (String × Val))) (timestamp : String) : String :=
  delta_sign apiSecret method path (requestQueryString params) (requestPayload body) timestamp

/-! ### Helper lemmas -/

lemma abs_roundHalfEvenInt_sub (q : ℚ) : |(roundHalfEvenInt q : ℚ) - q| ≤ 1 / 2 := by
  unfold roundHalfEvenInt
  have h0 : ((⌊q⌋ : ℤ) : ℚ) ≤ q := Int.floor_le q
  have h1 : q < (⌊q⌋ : ℚ) + 1 := Int.lt_floor_add_one q
  split_ifs with hr1 hr2 hev
  · rw [abs_sub_comm, abs_of_nonneg (by linarith)]
    linarith
  · rw [abs_of_nonneg (by push_cast; linarith)]
    push_cast
    linarith
  · rw [abs_sub_comm, abs_of_nonneg (by linarith)]
    linarith
  · rw [abs_of_nonneg (by push_cast; linarith)]
    push_cast
    linarith

/-- Claim C4: for every entry premium p, the stop price for that leg is
round(p * 2, 2), i.e. double the collected premium rounded to two decimal
places (hence within 1/200 of the exact double and an integer number of
cents); in particular premium 12.34 yields stop price 24.68 exactly. -/
theorem claim_c4_stop_price :
    stop_price (617 / 50) = 617 / 25
    ∧ (∀ p : ℚ, stop_price p = pyRound2 (p * 2))
    ∧ (∀ p : ℚ, |stop_price p - p * 2| ≤ 1 / 200)
    ∧ (∀ p : ℚ, ∃ n : ℤ, stop_price p = (n : ℚ) / 100) := by
  refine ⟨by norm_num [stop_price, pyRound2, roundHalfEvenInt], fun p => rfl, fun p => ?_,
    fun p => ⟨roundHalfEvenInt (p * 2 * 100), rfl⟩⟩
  have key := abs_roundHalfEvenInt_sub (p * 2 * 100)
  have hrw : stop_price p - p * 2 = ((roundHalfEvenInt (p * 2 * 100) : ℚ) - p * 2 * 100) / 100 := by
    unfold stop_price pyRound2
    ring
  rw [hrw, abs_div, abs_of_pos (by norm_num : (0 : ℚ) < 100)]
  linarith

/-- Claim C3: spot price extraction returns the coercion of the first of
close, last_price, mark_price that is present and coercible (non-coercible
values are skipped silently), and the run errs with PriceUnavailable iff
none of the three yields a number; a record with close "100.5" gives
100.5, a record with only mark_price 0 gives 0.0, the empty record errs. -/
theorem claim_c3_spot_price_extraction :
    (∀ (t : Val) (q : ℚ), priceFromFields t = some q ↔
        (fieldNum t "close" = some q
         ∨ (fieldNum t "close" = none ∧ fieldNum t "last_price" = some q)
         ∨ (fieldNum t "close" = none ∧ fieldNum t "last_price" = none
            ∧ fieldNum t "mark_price" = some q)))
    ∧ (∀ t : Val, spotPhase t = .error .priceUnavailable
        ↔ priceFromFields (normalize_result t) = none)
    ∧ priceFromFields (Val.vdict [("close", Val.vstr "100.5")]) = some (201 / 2)
    ∧ priceFromFields (Val.vdict [("mark_price", Val.vnum 0)]) = some 0
    ∧ spotPhase (Val.vdict []) = Except.error Err.priceUnavailable := by
  refine ⟨?_, ?_, ?_, rfl, rfl⟩
  · intro t q
    unfold priceFromFields
    rcases h1 : fieldNum t "close" with _ | v1 <;>
      rcases h2 : fieldNum t "last_price" with _ | v2 <;>
        simp [h1, h2]
  · intro t
    unfold spotPhase
    rcases h : priceFromFields (normalize_result t) with _ | v <;> simp [h]
  · have h : priceFromFields (Val.vdict [("close", Val.vstr "100.5")])
        = some (100 + 5 / 10 ^ 1) := rfl
    rw [h]
    norm_num

lemma pyMinKey_mem (f : ℚ → ℚ) : ∀ (l : List ℚ) (x : ℚ), pyMinKey f x l ∈ x :: l := by
  intro l
  induction l with
  | nil => intro x; simp [pyMinKey]
  | cons y ys ih =>
    intro x
    rw [pyMinKey]
    have h := ih (if f y < f x then y else x)
    rcases List.mem_cons.mp h with h1 | h1
    · rw [h1]
      split_ifs
      · exact List.mem_cons_of_mem _ (List.mem_cons_self _ _)
      · exact List.mem_cons_self _ _
    · exact List.mem_cons_of_mem _ (List.mem_cons_of_mem _ h1)

lemma pyMinKey_le (f : ℚ → ℚ) :
    ∀ (l : List ℚ) (x : ℚ), ∀ y ∈ x :: l, f (pyMinKey f x l) ≤ f y := by
  intro l
  induction l with
  | nil =>
    intro x y hy
    rcases List.mem_cons.mp hy with rfl | h1
    · simp [pyMinKey]
    · simp at h1
  | cons z zs ih =>
    intro x y hy
    rw [pyMinKey]
    have hle_x : f (if f z < f x then z else x) ≤ f x := by
      split_ifs with h
      · exact le_of_lt h
      · exact le_rfl
    have hle_z : f (if f z < f x then z else x) ≤ f z := by
      split_ifs with h
      · exact le_rfl
      · exact le_of_not_lt h
    have hhead := ih (if f z < f x then z else x) _ (List.mem_cons_self _ _)
    rcases List.mem_cons.mp hy with rfl | hy1
    · exact le_trans hhead hle_x
    rcases List.mem_cons.mp hy1 with rfl | hy2
    · exact le_trans hhead hle_z
    · exact ih (if f z < f x then z else x) y (List.mem_cons_of_mem _ hy2)

lemma pyMinKey_first (f : ℚ → ℚ) :
    ∀ (l : List ℚ) (x : ℚ), (x :: l).Sorted (· < ·) →
      ∀ y ∈ x :: l, f y = f (pyMinKey f x l) → pyMinKey f x l ≤ y := by
  intro l
  induction l with
  | nil =>
    intro x _ y hy _
    rcases List.mem_cons.mp hy with rfl | h1
    · simp [pyMinKey]
    · simp at h1
  | cons z zs ih =>
    intro x hs y hy heq
    obtain ⟨hxlt, hs1⟩ := List.sorted_cons.mp hs
    obtain ⟨hzlt, hs2⟩ := List.sorted_cons.mp hs1
    rw [pyMinKey] at heq ⊢
    by_cases hc : f z < f x
    · rw [if_pos hc] at heq ⊢
      rcases List.mem_cons.mp hy with rfl | hy1
      · exfalso
        have hle := pyMinKey_le f zs z z (List.mem_cons_self _ _)
        rw [← heq] at hle
        exact absurd (lt_of_lt_of_le hc hle) (lt_irrefl _)
      · exact ih z hs1 y hy1 heq
    · rw [if_neg hc] at heq ⊢
      have hfx_le_fz : f x ≤ f z := le_of_not_lt hc
      have hsx : (x :: zs).Sorted (· < ·) :=
        List.sorted_cons.mpr ⟨fun b hb => hxlt b (List.mem_cons_of_mem _ hb), hs2⟩
      rcases List.mem_cons.mp hy with h1 | hy1
      · rw [h1] at heq ⊢
        exact ih x hsx x (List.mem_cons_self _ _) heq
      rcases List.mem_cons.mp hy1 with rfl | hy2
      · rcases List.mem_cons.mp (pyMinKey_mem f zs x) with hres | hres
        · rw [hres]
          exact le_of_lt (hxlt y (List.mem_cons_self _ _))
        · exfalso
          have hle := pyMinKey_le f zs x x (List.mem_cons_self _ _)
          have hfeq : f x = f (pyMinKey f x zs) :=
            le_antisymm (le_trans hfx_le_fz (le_of_eq heq)) hle
          have hres_le := ih x hsx x (List.mem_cons_self _ _) hfeq
          have hgt := hxlt (pyMinKey f x zs) (List.mem_cons_of_mem _ hres)
          exact absurd (lt_of_lt_of_le hgt hres_le) (lt_irrefl _)
      · exact ih x hsx y (List.mem_cons_of_mem _ hy2) heq

/-- Claim C1: the collected strike list is strictly ascending, and on any
nonempty sorted strike list the selection returns the strike minimizing
distance to spot*1.01 as call strike and to spot*0.99 as put strike, ties
going to the smallest (first in ascending order); a singleton list gives
its element for both sides, and spot 50000 over strikes 49000, 49500,
50500, 51000 selects call 50500 and put 49500. -/
theorem claim_c1_strike_selection :
    (∀ syms : List String, (collect_strikes syms).Sorted (· < ·))
    ∧ (∀ (cmpPrice : ℚ) (strikes : List ℚ), strikes ≠ [] → strikes.Sorted (· < ·) →
        ∃ ce pe, pick_strikes cmpPrice strikes = some (ce, pe)
          ∧ ce ∈ strikes ∧ pe ∈ strikes
          ∧ (∀ s ∈ strikes, |ce - cmpPrice * 1.01| ≤ |s - cmpPrice * 1.01|)
          ∧ (∀ s ∈ strikes, |s - cmpPrice * 1.01| = |ce - cmpPrice * 1.01| → ce ≤ s)
          ∧ (∀ s ∈ strikes, |pe - cmpPrice * 0.99| ≤ |s - cmpPrice * 0.99|)
          ∧ (∀ s ∈ strikes, |s - cmpPrice * 0.99| = |pe - cmpPrice * 0.99| → pe ≤ s))
    ∧ (∀ cmpPrice s : ℚ, pick_strikes cmpPrice [s] = some (s, s))
    ∧ pick_strikes 50000 [49000, 49500, 50500, 51000] = some (50500, 49500) := by
  refine ⟨?_, ?_, fun c s => rfl,
    by norm_num [pick_strikes, pyMinKey, abs_of_nonneg, abs_of_nonpos]⟩
  · intro syms
    unfold collect_strikes
    refine (List.sorted_insertionSort (· ≤ ·) _).lt_of_le ?_
    exact (List.perm_insertionSort (· ≤ ·) _).nodup_iff.mpr (List.nodup_dedup _)
  · intro cmpPrice strikes hne hsorted
    obtain ⟨s, rest, rfl⟩ : ∃ a l, strikes = a :: l := by
      cases strikes with
      | nil => exact absurd rfl hne
      | cons a l => exact ⟨a, l, rfl⟩
    refine ⟨pyMinKey (fun t => |t - cmpPrice * 1.01|) s rest,
      pyMinKey (fun t => |t - cmpPrice * 0.99|) s rest, rfl,
      pyMinKey_mem _ rest s, pyMinKey_mem _ rest s, ?_, ?_, ?_, ?_⟩
    · intro t ht
      exact pyMinKey_le (fun u => |u - cmpPrice * 1.01|) rest s t ht
    · intro t ht heq
      exact pyMinKey_first (fun u => |u - cmpPrice * 1.01|) rest s hsorted t ht heq
    · intro t ht
      exact pyMinKey_le (fun u => |u - cmpPrice * 0.99|) rest s t ht
    · intro t ht heq
      exact pyMinKey_first (fun u => |u - cmpPrice * 0.99|) rest s hsorted t ht heq

/-- Claim C1 witness: the general selection statement applied to the
concrete end-to-end scenario of the specification. -/
theorem claim_c1_strike_selection_witness :
    ∃ ce pe, pick_strikes 50000 [49000, 49500, 50500, 51000] = some (ce, pe)
      ∧ ce ∈ [(49000 : ℚ), 49500, 50500, 51000] ∧ pe ∈ [(49000 : ℚ), 49500, 50500, 51000]
      ∧ (∀ s ∈ [(49000 : ℚ), 49500, 50500, 51000],
          |ce - 50000 * 1.01| ≤ |s - 50000 * 1.01|)
      ∧ (∀ s ∈ [(49000 : ℚ), 49500, 50500, 51000],
          |s - 50000 * 1.01| = |ce - 50000 * 1.01| → ce ≤ s)
      ∧ (∀ s ∈ [(49000 : ℚ), 49500, 50500, 51000],
          |pe - 50000 * 0.99| ≤ |s - 50000 * 0.99|)
      ∧ (∀ s ∈ [(49000 : ℚ), 49500, 50500, 51000],
          |s - 50000 * 0.99| = |pe - 50000 * 0.99| → pe ≤ s) :=
  claim_c1_strike_selection.2.1 50000 [49000, 49500, 50500, 51000]
    (by decide) (by decide)

lemma splitDashChars_ne_nil (l : List Char) : splitDashChars l ≠ [] := by
  cases l with
  | nil => simp [splitDashChars]
  | cons c cs =>
    unfold splitDashChars
    rcases h : splitDashChars cs with _ | ⟨p, ps⟩
    · simp
    · split_ifs <;> simp

/-- Inverse of the dash split: joining the parts with dashes. -/
def joinDash : List (List Char) → List Char
  | [] => []
  | [p] => p
  | p :: q :: r => p ++ '-' :: joinDash (q :: r)

lemma joinDash_splitDashChars (l : List Char) : joinDash (splitDashChars l) = l := by
  induction l with
  | nil => rfl
  | cons c cs ih =>
    unfold splitDashChars
    rcases h : splitDashChars cs with _ | ⟨p, ps⟩
    · exact absurd h (splitDashChars_ne_nil cs)
    · rw [h] at ih
      by_cases hc : c = '-'
      · subst hc
        show joinDash (if '-' = '-' then [] :: p :: ps else ('-' :: p) :: ps) = '-' :: cs
        rw [if_pos rfl]
        show [] ++ '-' :: joinDash (p :: ps) = '-' :: cs
        rw [ih]
        rfl
      · show joinDash (if c = '-' then [] :: p :: ps else (c :: p) :: ps) = c :: cs
        rw [if_neg hc]
        cases ps with
        | nil =>
          show c :: p = c :: cs
          rw [show p = cs from ih]
        | cons q r =>
          show (c :: p) ++ '-' :: joinDash (q :: r) = c :: cs
          rw [← ih]
          rfl

lemma part1_infix {l p0 p1 : List Char} {rest : List (List Char)}
    (h : splitDashChars l = p0 :: p1 :: rest) : p1 <:+: l := by
  have hj := joinDash_splitDashChars l
  rw [h] at hj
  obtain ⟨t, ht⟩ : ∃ t, joinDash (p1 :: rest) = p1 ++ t := by
    cases rest with
    | nil => exact ⟨[], by simp [joinDash]⟩
    | cons q r => exact ⟨'-' :: joinDash (q :: r), rfl⟩
  refine ⟨p0 ++ ['-'], t, ?_⟩
  rw [← hj]
  show (p0 ++ ['-']) ++ p1 ++ t = p0 ++ '-' :: joinDash (p1 :: rest)
  rw [ht]
  simp

lemma productEntry_eq_some {tag : String} {p : Product} {pr : String × Product} :
    productEntry tag p = some pr ↔
      pr = ((p.symbol).getD "", p)
      ∧ 4 ≤ (splitDash ((p.symbol).getD "")).length
      ∧ ((splitDash ((p.symbol).getD "")).getD 0 "" = "C"
         ∨ (splitDash ((p.symbol).getD "")).getD 0 "" = "P")
      ∧ (splitDash ((p.symbol).getD "")).getD 1 "" = "BTC"
      ∧ (splitDash ((p.symbol).getD "")).getD 3 "" = tag
      ∧ (pyFloatStr ((splitDash ((p.symbol).getD "")).getD 2 "")).isSome = true := by
  constructor
  · intro h
    unfold productEntry at h
    split_ifs at h with h1 h2 h3 h4 h5 h6 h7
    exact ⟨(Option.some_inj.mp h).symm, le_of_not_lt h3, by tauto,
      not_not.mp h4, not_not.mp h5, h7⟩
  · rintro ⟨rfl, hlen, hcp, hund, hexp, hstrike⟩
    have hsym_ne : (p.symbol).getD "" ≠ "" := by
      intro he
      rw [he] at hlen
      simp [splitDash, splitDashChars] at hlen
    have hlenC : 4 ≤ (splitDashChars ((p.symbol).getD "").toList).length := by
      simpa [splitDash] using hlen
    obtain ⟨a, b, rest, hsp⟩ :
        ∃ a b rest, splitDashChars ((p.symbol).getD "").toList = a :: b :: rest := by
      rcases hs : splitDashChars ((p.symbol).getD "").toList with _ | ⟨a, _ | ⟨b, rest⟩⟩ <;>
        rw [hs] at hlenC
      · simp at hlenC
      · simp at hlenC
      · exact ⟨a, b, rest, rfl⟩
    have hb : String.mk b = "BTC" := by
      have := hund
      rw [splitDash, hsp] at this
      simpa [List.getD] using this
    have hbl : b = "BTC".toList := by
      have := congrArg String.toList hb
      simpa using this
    have hinfix : "BTC".toList <:+: ((p.symbol).getD "").toList :=
      hbl ▸ part1_infix hsp
    unfold productEntry
    rw [if_neg hsym_ne, if_neg (not_not_intro hinfix), if_neg (not_lt.mpr hlen),
      if_neg (not_not_intro hund), if_neg (not_not_intro hexp),
      if_neg (by tauto), if_pos hstrike]

/-- Claim C2 counterexample: the claim requires exactly 4 dash-separated
segments and a positive strike, but a symbol with a fifth segment is
discovered (only the first four segments are inspected), and a strike
segment "0", which is not positive, is also discovered. -/
theorem claim_c2_counterexample :
    "C-BTC-50000-111111-X" ∈ keysOf (extract_btc_option_products
        [⟨some "C-BTC-50000-111111-X", none⟩] "111111")
    ∧ (splitDash "C-BTC-50000-111111-X").length ≠ 4
    ∧ "C-BTC-0-111111" ∈ keysOf (extract_btc_option_products
        [⟨some "C-BTC-0-111111", none⟩] "111111")
    ∧ pyFloatStr "0" = some 0 := by
  refine ⟨?_, by decide, ?_, rfl⟩
  · have h : keysOf (extract_btc_option_products
        [⟨some "C-BTC-50000-111111-X", none⟩] "111111") = ["C-BTC-50000-111111-X"] := rfl
    rw [h]
    exact List.mem_singleton.mpr rfl
  · have h : keysOf (extract_btc_option_products
        [⟨some "C-BTC-0-111111", none⟩] "111111") = ["C-BTC-0-111111"] := rfl
    rw [h]
    exact List.mem_singleton.mpr rfl

/-- Claim C2 (amended): the discovered mapping's keys are exactly those
input symbols having at least 4 dash-separated segments (only the first
four are inspected, extra trailing segments are allowed), contract-type
letter C or P, underlying segment BTC, expiry segment equal to the
supplied tag, and a strike segment that parses as a number (zero
included); no other symbol is included. -/
theorem claim_c2_discovery_filter (ps : List Product) (tag sym : String) :
    sym ∈ keysOf (extract_btc_option_products ps tag) ↔
      ((∃ p ∈ ps, (p.symbol).getD "" = sym)
       ∧ 4 ≤ (splitDash sym).length
       ∧ ((splitDash sym).getD 0 "" = "C" ∨ (splitDash sym).getD 0 "" = "P")
       ∧ (splitDash sym).getD 1 "" = "BTC"
       ∧ (splitDash sym).getD 3 "" = tag
       ∧ (pyFloatStr ((splitDash sym).getD 2 "")).isSome = true) := by
  unfold keysOf extract_btc_option_products
  rw [List.mem_map]
  constructor
  · rintro ⟨pr, hpr, rfl⟩
    rw [List.mem_filterMap] at hpr
    obtain ⟨p, hp, hsome⟩ := hpr
    obtain ⟨rfl, hrest⟩ := productEntry_eq_some.mp hsome
    exact ⟨⟨p, hp, rfl⟩, hrest⟩
  · rintro ⟨⟨p, hp, hsym⟩, hrest⟩
    refine ⟨(sym, p), ?_, rfl⟩
    rw [List.mem_filterMap]
    refine ⟨p, hp, ?_⟩
    rw [productEntry_eq_some, hsym]
    exact ⟨rfl, hrest⟩

lemma spotPhase_error {t : Val} {e : Err} (h : spotPhase t = .error e) :
    e = .priceUnavailable := by
  unfold spotPhase at h
  rcases hp : priceFromFields (normalize_result t) with _ | q <;> rw [hp] at h
  · injection h with h1
    exact h1.symm
  · simp at h

lemma premiumResolve_error {t : Val} {s : String} {e : Err}
    (h : premiumResolve t s = .error e) : e = .premiumUnavailable s := by
  unfold premiumResolve at h
  rcases hp : current_option_premium t with _ | q <;> rw [hp] at h
  · injection h with h1
    exact h1.symm
  · simp at h

lemma placePhase_error {env : Env} {cePid pePid : Val} {ceP peP : ℚ} {e : Err}
    (h : (placePhase env cePid pePid ceP peP).1 = .error e) :
    e = .orderPlacementFailed := by
  unfold placePhase at h
  split_ifs at h <;> simp_all

lemma placePhase_trace (env : Env) (cePid pePid : Val) (ceP peP : ℚ) :
    ((placePhase env cePid pePid ceP peP).2 =
      List.take (placePhase env cePid pePid ceP peP).2.length
        [entryBody cePid, entryBody pePid, stopBody cePid (stop_price ceP),
         stopBody pePid (stop_price peP)])
    ∧ (∀ n, env.placeOk n = false → (placePhase env cePid pePid ceP peP).2.length ≤ n + 1)
    ∧ (∀ r, (placePhase env cePid pePid ceP peP).1 = .ok r →
        (placePhase env cePid pePid ceP peP).2.length = 4) := by
  by_cases h0 : env.placeOk 0
  · by_cases h1 : env.placeOk 1
    · by_cases h2 : env.placeOk 2
      · by_cases h3 : env.placeOk 3
        · refine ⟨by simp [placePhase, h0, h1, h2, h3], fun n hn => ?_,
            by simp [placePhase, h0, h1, h2, h3]⟩
          rcases n with _ | _ | _ | _ | n
          · exact absurd h0 (by simp [hn])
          · exact absurd h1 (by simp [hn])
          · exact absurd h2 (by simp [hn])
          · exact absurd h3 (by simp [hn])
          · simp [placePhase, h0, h1, h2, h3]
        · refine ⟨by simp [placePhase, h0, h1, h2, h3], fun n hn => ?_,
            by simp [placePhase, h0, h1, h2, h3]⟩
          rcases n with _ | _ | _ | n
          · exact absurd h0 (by simp [hn])
          · exact absurd h1 (by simp [hn])
          · exact absurd h2 (by simp [hn])
          · simp [placePhase, h0, h1, h2, h3]
      · refine ⟨by simp [placePhase, h0, h1, h2], fun n hn => ?_,
          by simp [placePhase, h0, h1, h2]⟩
        rcases n with _ | _ | n
        · exact absurd h0 (by simp [hn])
        · exact absurd h1 (by simp [hn])
        · simp [placePhase, h0, h1, h2]
    · refine ⟨by simp [placePhase, h0, h1], fun n hn => ?_, by simp [placePhase, h0, h1]⟩
      rcases n with _ | n
      · exact absurd h0 (by simp [hn])
      · simp [placePhase, h0, h1]
  · refine ⟨by simp [placePhase, h0], fun n hn => ?_, by simp [placePhase, h0]⟩
    simp [placePhase, h0]

/-- Claim C7: reconstructed symbols are (C|P)-BTC-(int strike)-expiry
with truncating conversion of the strike (so 50500.0 and 50500.7 both
render "50500"), and — once discovery, strike selection and picking have
succeeded — the run fails with SelectedContractMissing exactly when one
of the two reconstructed symbols is absent from the discovered map. -/
theorem claim_c7_symbol_reconstruction :
    (∀ q : ℚ, 0 ≤ q → ((pyInt q : ℚ) ≤ q ∧ q < (pyInt q : ℚ) + 1))
    ∧ pyInt (50500 : ℚ) = 50500
    ∧ pyInt ((505007 : ℚ) / 10) = 50500
    ∧ (∀ expiry : String,
        option_symbol "C" ((505007 : ℚ) / 10) expiry = option_symbol "C" (50500 : ℚ) expiry)
    ∧ option_symbol "C" ((505007 : ℚ) / 10) "210821" = "C-BTC-50500-210821"
    ∧ (∀ (env : Env) (cmpPrice : ℚ) (m : List (String × Product)) (strikes : List ℚ)
        (a b : ℚ),
        extract_btc_option_products env.products env.todayTag = m →
        m.isEmpty = false →
        collect_strikes (keysOf m) = strikes →
        strikes.isEmpty = false →
        pick_strikes cmpPrice strikes = some (a, b) →
        (selectPhase env cmpPrice = .error .selectedContractMissing ↔
          (alookup m (option_symbol "C" a env.todayTag) = none
           ∨ alookup m (option_symbol "P" b env.todayTag) = none))) := by
  have hfloor : pyInt ((505007 : ℚ) / 10) = 50500 := by
    unfold pyInt
    rw [if_pos (by norm_num), Int.floor_eq_iff]
    constructor <;> norm_num
  have h50500 : pyInt (50500 : ℚ) = 50500 := by
    unfold pyInt
    rw [if_pos (by norm_num)]
    exact_mod_cast Int.floor_intCast 50500
  refine ⟨?_, h50500, hfloor, ?_, ?_, ?_⟩
  · intro q hq
    unfold pyInt
    rw [if_pos hq]
    exact ⟨Int.floor_le q, Int.lt_floor_add_one q⟩
  · intro expiry
    unfold option_symbol
    rw [hfloor, h50500]
  · unfold option_symbol
    rw [hfloor]
    rfl
  · intro env cmpPrice m strikes a b h1 h2 h3 h4 h5
    unfold selectPhase
    simp only [h1, h2, h3, h4, h5, Bool.false_eq_true, if_false]
    rcases hce : alookup m (option_symbol "C" a env.todayTag) with _ | ceProd <;>
      rcases hpe : alookup m (option_symbol "P" b env.todayTag) with _ | peProd <;>
        simp only [hce, hpe]
    · simp
    · simp
    · simp
    · split_ifs with hid <;> simp

/-- Claim C9: a discovered strike of 0 is excluded from the candidate set
by the truthiness test (membership in the collected strikes means a
nonzero parsed strike), so when discovery is nonempty but every
discovered symbol parses to strike 0, the run raises NoStrikesParsed. -/
theorem claim_c9_zero_strike_excluded :
    (∀ (syms : List String) (s : ℚ), s ∈ collect_strikes syms ↔
        (s ≠ 0 ∧ ∃ sym ∈ syms, parse_strike_from_symbol sym = some s))
    ∧ (∀ (env : Env) (cmpPrice : ℚ),
        spotPhase (env.ticker env.underlying) = .ok cmpPrice →
        (extract_btc_option_products env.products env.todayTag).isEmpty = false →
        (∀ sym ∈ keysOf (extract_btc_option_products env.products env.todayTag),
          parse_strike_from_symbol sym = some 0) →
        (run_short_strangle env).result = .error .noStrikesParsed) := by
  have hmem : ∀ (syms : List String) (s : ℚ), s ∈ collect_strikes syms ↔
      (s ≠ 0 ∧ ∃ sym ∈ syms, parse_strike_from_symbol sym = some s) := by
    intro syms s
    unfold collect_strikes
    rw [(List.perm_insertionSort _ _).mem_iff, List.mem_dedup, List.mem_filterMap]
    constructor
    · rintro ⟨sym, hsym, hf⟩
      rcases hp : parse_strike_from_symbol sym with _ | v
      · simp [hp] at hf
      · simp only [hp] at hf
        by_cases hv : v = 0
        · rw [if_pos hv] at hf
          cases hf
        · rw [if_neg hv] at hf
          obtain rfl := Option.some_inj.mp hf
          exact ⟨hv, sym, hsym, hp⟩
    · rintro ⟨hs, sym, hsym, hp⟩
      refine ⟨sym, hsym, ?_⟩
      simp only [hp]
      rw [if_neg hs]
  refine ⟨hmem, ?_⟩
  intro env cmpPrice hspot hne hall
  have hstrikes :
      collect_strikes (keysOf (extract_btc_option_products env.products env.todayTag)) = [] := by
    rcases hcs : collect_strikes (keysOf (extract_btc_option_products env.products env.todayTag))
      with _ | ⟨s, rest⟩
    · rfl
    · exfalso
      have hs : s ∈ collect_strikes
          (keysOf (extract_btc_option_products env.products env.todayTag)) := by
        rw [hcs]
        exact List.mem_cons_self _ _
      obtain ⟨hs0, sym, hsym, hps⟩ := (hmem _ _).mp hs
      rw [hall sym hsym] at hps
      exact hs0 (Option.some_inj.mp hps).symm
  have hsel : selectPhase env cmpPrice = .error .noStrikesParsed := by
    unfold selectPhase
    rw [hne, hstrikes]
    simp
  unfold run_short_strangle
  simp [hspot, hsel]

/-- Claim C9 witness: a run whose only discovered contract is
C-BTC-0-111111 (strike 0) errs with NoStrikesParsed even though the
discovery map is nonempty. -/
theorem claim_c9_zero_strike_excluded_witness :
    (run_short_strangle
      { underlying := "BTCUSDT", todayTag := "111111",
        ticker := fun _ => Val.vdict [("close", Val.vnum 50000)],
        products := [⟨some "C-BTC-0-111111", some (Val.vnum 7)⟩],
        placeOk := fun _ => true, placeResp := fun _ => Val.vnull }).result
      = .error .noStrikesParsed :=
  claim_c9_zero_strike_excluded.2
    { underlying := "BTCUSDT", todayTag := "111111",
      ticker := fun _ => Val.vdict [("close", Val.vnum 50000)],
      products := [⟨some "C-BTC-0-111111", some (Val.vnum 7)⟩],
      placeOk := fun _ => true, placeResp := fun _ => Val.vnull }
    50000 rfl rfl
    (by
      intro sym hsym
      rcases List.mem_singleton.mp hsym with rfl
      rfl)

/-- Claim C10: the run raises ProductIdMissing exactly when (after
discovery, strike selection and symbol validation succeed) one of the two
selected products has a falsy id field — an id of 0 counts as missing,
like an absent key — and on that error no option ticker has been fetched
and no order has been placed. -/
theorem claim_c10_product_id_truthiness :
    (∀ env : Env, (run_short_strangle env).result = .error .productIdMissing →
      (run_short_strangle env).premiumFetches = [] ∧ (run_short_strangle env).orders = [])
    ∧ (∀ (env : Env) (cmpPrice : ℚ) (m : List (String × Product)) (strikes : List ℚ)
        (a b : ℚ) (ceProd peProd : Product),
        extract_btc_option_products env.products env.todayTag = m →
        m.isEmpty = false →
        collect_strikes (keysOf m) = strikes →
        strikes.isEmpty = false →
        pick_strikes cmpPrice strikes = some (a, b) →
        alookup m (option_symbol "C" a env.todayTag) = some ceProd →
        alookup m (option_symbol "P" b env.todayTag) = some peProd →
        (selectPhase env cmpPrice = .error .productIdMissing ↔
          (pyTruthyOpt ceProd.id = false ∨ pyTruthyOpt peProd.id = false)))
    ∧ pyTruthyOpt (some (Val.vnum 0)) = false
    ∧ pyTruthyOpt none = false := by
  refine ⟨?_, ?_, rfl, rfl⟩
  · intro env h
    unfold run_short_strangle at h ⊢
    rcases h1 : spotPhase (env.ticker env.underlying) with e | cmpPrice <;>
      simp only [h1] at h ⊢
    · exact ⟨trivial, trivial⟩
    rcases h2 : selectPhase env cmpPrice with e | ⟨ceS, peS, cePid, pePid⟩ <;>
      simp only [h2] at h ⊢
    · exact ⟨trivial, trivial⟩
    rcases h3 : premiumResolve (env.ticker ceS) ceS with e | ceP <;> simp only [h3] at h ⊢
    · exfalso
      have he := premiumResolve_error h3
      simp only [Except.error.injEq] at h
      rw [h] at he
      cases he
    rcases h4 : premiumResolve (env.ticker peS) peS with e | peP <;> simp only [h4] at h ⊢
    · exfalso
      have he := premiumResolve_error h4
      simp only [Except.error.injEq] at h
      rw [h] at he
      cases he
    rcases h5 : placePhase env cePid pePid ceP peP with ⟨res, tr⟩
    rcases res with e | resps <;> simp only [h5] at h ⊢
    · exfalso
      have he := placePhase_error (e := e) (by rw [h5])
      simp only [Except.error.injEq] at h
      rw [h] at he
      cases he
    · exact absurd h (by simp)
  · intro env cmpPrice m strikes a b ceProd peProd h1 h2 h3 h4 h5 h6 h7
    unfold selectPhase
    simp only [h1, h2, h3, h4, h5, h6, h7, Bool.false_eq_true, if_false]
    cases hce : pyTruthyOpt ceProd.id <;> cases hpe : pyTruthyOpt peProd.id <;>
      simp [hce, hpe]

/-- Claim C6: order placement is strictly sequential — the issued
placement calls always form a prefix of (CE entry, PE entry, CE stop,
PE stop) — a placement failure at step n cuts the sequence there (so a
failed CE entry means the PE entry is never placed), nothing is ever
retried or rolled back, and a successful run places exactly 4 orders. -/
theorem claim_c6_sequential_orders (env : Env) :
    (∃ cePid pePid ceSP peSP,
      (run_short_strangle env).orders =
        List.take (run_short_strangle env).orders.length
          [entryBody cePid, entryBody pePid, stopBody cePid ceSP, stopBody pePid peSP])
    ∧ (∀ n, env.placeOk n = false → (run_short_strangle env).orders.length ≤ n + 1)
    ∧ (∀ r, (run_short_strangle env).result = .ok r →
        (run_short_strangle env).orders.length = 4) := by
  unfold run_short_strangle
  rcases h1 : spotPhase (env.ticker env.underlying) with e | cmpPrice <;> simp only [h1]
  · exact ⟨⟨Val.vnull, Val.vnull, 0, 0, by simp⟩, by simp, by simp⟩
  rcases h2 : selectPhase env cmpPrice with e | ⟨ceS, peS, cePid, pePid⟩ <;> simp only [h2]
  · exact ⟨⟨Val.vnull, Val.vnull, 0, 0, by simp⟩, by simp, by simp⟩
  rcases h3 : premiumResolve (env.ticker ceS) ceS with e | ceP <;> simp only [h3]
  · exact ⟨⟨Val.vnull, Val.vnull, 0, 0, by simp⟩, by simp, by simp⟩
  rcases h4 : premiumResolve (env.ticker peS) peS with e | peP <;> simp only [h4]
  · exact ⟨⟨Val.vnull, Val.vnull, 0, 0, by simp⟩, by simp, by simp⟩
  obtain ⟨htr, hlen, hok⟩ := placePhase_trace env cePid pePid ceP peP
  rcases h5 : placePhase env cePid pePid ceP peP with ⟨res, tr⟩
  rw [h5] at htr hlen hok
  rcases res with e | resps <;> simp only [h5]
  · exact ⟨⟨cePid, pePid, stop_price ceP, stop_price peP, htr⟩, hlen, by simp⟩
  · exact ⟨⟨cePid, pePid, stop_price ceP, stop_price peP, htr⟩, hlen,
      fun r _ => hok resps rfl⟩

/-- Claim C6 witness: in an environment whose first placement attempt
fails, at most one order is ever placed (the put entry is never issued). -/
theorem claim_c6_sequential_orders_witness :
    ({ underlying := "BTCUSDT", todayTag := "111111",
       ticker := fun _ => Val.vdict [("close", Val.vnum 50000)],
       products := [⟨some "C-BTC-50500-111111", some (Val.vnum 1)⟩,
                    ⟨some "P-BTC-49500-111111", some (Val.vnum 2)⟩],
       placeOk := fun _ => false, placeResp := fun _ => Val.vnull } : Env).placeOk 0 = false
    ∧ (run_short_strangle
      { underlying := "BTCUSDT", todayTag := "111111",
        ticker := fun _ => Val.vdict [("close", Val.vnum 50000)],
        products := [⟨some "C-BTC-50500-111111", some (Val.vnum 1)⟩,
                     ⟨some "P-BTC-49500-111111", some (Val.vnum 2)⟩],
        placeOk := fun _ => false, placeResp := fun _ => Val.vnull }).orders.length ≤ 0 + 1 :=
  ⟨rfl, (claim_c6_sequential_orders
    { underlying := "BTCUSDT", todayTag := "111111",
      ticker := fun _ => Val.vdict [("close", Val.vnum 50000)],
      products := [⟨some "C-BTC-50500-111111", some (Val.vnum 1)⟩,
                   ⟨some "P-BTC-49500-111111", some (Val.vnum 2)⟩],
      placeOk := fun _ => false, placeResp := fun _ => Val.vnull }).2.1 0 rfl⟩

/-- Claim C7 witness: the validation iff applied to a concrete
environment whose discovery holds exactly the two selected contracts. -/
theorem claim_c7_symbol_reconstruction_witness :
    (selectPhase
      { underlying := "BTCUSDT", todayTag := "111111",
        ticker := fun _ => Val.vdict [("close", Val.vnum 50000)],
        products := [⟨some "C-BTC-50500-111111", some (Val.vnum 1)⟩,
                     ⟨some "P-BTC-49500-111111", some (Val.vnum 2)⟩],
        placeOk := fun _ => true, placeResp := fun _ => Val.vnull } 50000
      = .error .selectedContractMissing) ↔
    (alookup [("C-BTC-50500-111111", (⟨some "C-BTC-50500-111111", some (Val.vnum 1)⟩ : Product)),
              ("P-BTC-49500-111111", (⟨some "P-BTC-49500-111111", some (Val.vnum 2)⟩ : Product))]
        (option_symbol "C" 50500
          ({ underlying := "BTCUSDT", todayTag := "111111",
             ticker := fun _ => Val.vdict [("close", Val.vnum 50000)],
             products := [⟨some "C-BTC-50500-111111", some (Val.vnum 1)⟩,
                          ⟨some "P-BTC-49500-111111", some (Val.vnum 2)⟩],
             placeOk := fun _ => true, placeResp := fun _ => Val.vnull } : Env).todayTag) = none
     ∨ alookup [("C-BTC-50500-111111", (⟨some "C-BTC-50500-111111", some (Val.vnum 1)⟩ : Product)),
              ("P-BTC-49500-111111", (⟨some "P-BTC-49500-111111", some (Val.vnum 2)⟩ : Product))]
        (option_symbol "P" 49500
          ({ underlying := "BTCUSDT", todayTag := "111111",
             ticker := fun _ => Val.vdict [("close", Val.vnum 50000)],
             products := [⟨some "C-BTC-50500-111111", some (Val.vnum 1)⟩,
                          ⟨some "P-BTC-49500-111111", some (Val.vnum 2)⟩],
             placeOk := fun _ => true, placeResp := fun _ => Val.vnull } : Env).todayTag) = none) :=
  claim_c7_symbol_reconstruction.2.2.2.2.2
    { underlying := "BTCUSDT", todayTag := "111111",
      ticker := fun _ => Val.vdict [("close", Val.vnum 50000)],
      products := [⟨some "C-BTC-50500-111111", some (Val.vnum 1)⟩,
                   ⟨some "P-BTC-49500-111111", some (Val.vnum 2)⟩],
      placeOk := fun _ => true, placeResp := fun _ => Val.vnull }
    50000
    [("C-BTC-50500-111111", ⟨some "C-BTC-50500-111111", some (Val.vnum 1)⟩),
     ("P-BTC-49500-111111", ⟨some "P-BTC-49500-111111", some (Val.vnum 2)⟩)]
    [49500, 50500] 50500 49500 rfl rfl rfl rfl
    (by norm_num [pick_strikes, pyMinKey, abs_of_nonneg, abs_of_nonpos])

/-- Claim C10 witness: with the call-leg product carrying id 0, the
validation iff holds concretely; its right side is true, so the run
aborts with ProductIdMissing. -/
theorem claim_c10_product_id_truthiness_witness :
    (selectPhase
      { underlying := "BTCUSDT", todayTag := "111111",
        ticker := fun _ => Val.vdict [("close", Val.vnum 50000)],
        products := [⟨some "C-BTC-50500-111111", some (Val.vnum 0)⟩,
                     ⟨some "P-BTC-49500-111111", some (Val.vnum 2)⟩],
        placeOk := fun _ => true, placeResp := fun _ => Val.vnull } 50000
      = .error .productIdMissing) ↔
    (pyTruthyOpt (Product.id ⟨some "C-BTC-50500-111111", some (Val.vnum 0)⟩) = false
     ∨ pyTruthyOpt (Product.id ⟨some "P-BTC-49500-111111", some (Val.vnum 2)⟩) = false) :=
  claim_c10_product_id_truthiness.2.1
    { underlying := "BTCUSDT", todayTag := "111111",
      ticker := fun _ => Val.vdict [("close", Val.vnum 50000)],
      products := [⟨some "C-BTC-50500-111111", some (Val.vnum 0)⟩,
                   ⟨some "P-BTC-49500-111111", some (Val.vnum 2)⟩],
      placeOk := fun _ => true, placeResp := fun _ => Val.vnull }
    50000
    [("C-BTC-50500-111111", ⟨some "C-BTC-50500-111111", some (Val.vnum 0)⟩),
     ("P-BTC-49500-111111", ⟨some "P-BTC-49500-111111", some (Val.vnum 2)⟩)]
    [49500, 50500] 50500 49500
    ⟨some "C-BTC-50500-111111", some (Val.vnum 0)⟩
    ⟨some "P-BTC-49500-111111", some (Val.vnum 2)⟩
    rfl rfl rfl rfl
    (by norm_num [pick_strikes, pyMinKey, abs_of_nonneg, abs_of_nonpos])
    rfl rfl

/-- Claim C8 counterexample: on the ticker record with a falsy result
wrapper and a top-level close of 5, premium extraction returns 5 while
spot resolution extracts nothing (and would raise PriceUnavailable), so
the two extractions are not the same. -/
theorem claim_c8_counterexample :
    current_option_premium (Val.vdict [("result", Val.vdict []), ("close", Val.vnum 5)])
      = some 5
    ∧ priceFromFields (normalize_result
        (Val.vdict [("result", Val.vdict []), ("close", Val.vnum 5)])) = none :=
  ⟨rfl, rfl⟩

/-- Claim C8 (amended): premium extraction uses the same close,
last_price, mark_price precedence as spot resolution, but its wrapper
unwrapping falls back to the whole record whenever the result value is
falsy; on every dict ticker whose result key is absent or truthy, it
yields exactly the spot-resolution price and errs exactly when spot
resolution raises PriceUnavailable. -/
theorem claim_c8_premium_unwrap_refinement (d : List (String × Val))
    (h : dictLookup (Val.vdict d) "result" = none
         ∨ ∃ v, dictLookup (Val.vdict d) "result" = some v ∧ pyTruthy v = true) :
    current_option_premium (Val.vdict d) = priceFromFields (normalize_result (Val.vdict d))
    ∧ (∀ sym, premiumResolve (Val.vdict d) sym = .error (.premiumUnavailable sym)
        ↔ spotPhase (Val.vdict d) = .error .priceUnavailable) := by
  have hun : premium_unwrap (Val.vdict d) = normalize_result (Val.vdict d) := by
    unfold premium_unwrap normalize_result
    rcases h with h | ⟨v, hv, htr⟩
    · rw [h]
    · rw [hv]
      simp [htr]
  have hcur : current_option_premium (Val.vdict d)
      = priceFromFields (normalize_result (Val.vdict d)) := by
    show priceFromFields (premium_unwrap (Val.vdict d))
      = priceFromFields (normalize_result (Val.vdict d))
    rw [hun]
  refine ⟨hcur, fun sym => ?_⟩
  unfold premiumResolve spotPhase
  rw [hcur]
  rcases hp : priceFromFields (normalize_result (Val.vdict d)) with _ | q <;> simp [hp]

/-- Claim C8 witness: the refinement applied to a ticker whose (truthy)
result wrapper holds close 5. -/
theorem claim_c8_premium_unwrap_refinement_witness :
    current_option_premium (Val.vdict [("result", Val.vdict [("close", Val.vnum 5)])])
      = priceFromFields (normalize_result
          (Val.vdict [("result", Val.vdict [("close", Val.vnum 5)])]))
    ∧ (∀ sym, premiumResolve (Val.vdict [("result", Val.vdict [("close", Val.vnum 5)])]) sym
          = .error (.premiumUnavailable sym)
        ↔ spotPhase (Val.vdict [("result", Val.vdict [("close", Val.vnum 5)])])
          = .error .priceUnavailable) :=
  claim_c8_premium_unwrap_refinement [("result", Val.vdict [("close", Val.vnum 5)])]
    (Or.inr ⟨Val.vdict [("close", Val.vnum 5)], rfl, rfl⟩)

set_option maxRecDepth 100000 in
theorem sha256_test_vector :
    hexStr (sha256 (strBytes "abc"))
      = "ba7816bf8f01cfea414140de5dae2223b00361a396177a9cb410ff61f20015ad" := by
  decide

set_option maxRecDepth 100000 in
theorem hmacSha256_test_vector :
    hexStr (hmacSha256 (strBytes "key")
        (strBytes "The quick brown fox jumps over the lazy dog"))
      = "f7bc83f430538424b13298e6aa6fb143ef4d59a14946175997479dbc2d1a3cd8" := by
  decide

/-- Claim C5: every authenticated request is signed with
HMAC-SHA256(secret, method + timestamp + path + query_string + payload),
where the query string is the question-mark-prefixed urlencoding of the
parameters (empty when there are none) and the payload is the exact JSON
body sent (empty when there is no body); identical
(method, timestamp, path, query_string, payload, secret) tuples yield
the identical signature string. -/
theorem claim_c5_request_signature :
    (∀ (secret method path : String) (params : List (String × String))
        (body : Option (List (String × Val))) (timestamp : String),
      request_signature secret method path params body timestamp
        = hexStr (hmacSha256 (strBytes secret)
            (strBytes (method ++ timestamp ++ path
              ++ (if params.isEmpty then "" else "?" ++ urlencode params)
              ++ requestPayload body))))
    ∧ (∀ m1 p1 q1 pl1 t1 s1 m2 p2 q2 pl2 t2 s2 : String,
        m1 = m2 → t1 = t2 → p1 = p2 → q1 = q2 → pl1 = pl2 → s1 = s2 →
        delta_sign s1 m1 p1 q1 pl1 t1 = delta_sign s2 m2 p2 q2 pl2 t2) := by
  refine ⟨fun secret method path params body timestamp => rfl, ?_⟩
  rintro m1 p1 q1 pl1 t1 s1 m2 p2 q2 pl2 t2 s2 rfl rfl rfl rfl rfl rfl
  rfl

/-- Claim C5 witness: the signing contract applied to a concrete order
placement and determinism applied to a concrete tuple. -/
theorem claim_c5_request_signature_witness :
    request_signature "apisecret" "POST" "/v2/orders" []
        (some [("order_type", Val.vstr "market_order"), ("size", Val.vnum 1),
               ("side", Val.vstr "sell"), ("product_id", Val.vnum 27)]) "1700000000"
      = hexStr (hmacSha256 (strBytes "apisecret")
          (strBytes ("POST" ++ "1700000000" ++ "/v2/orders"
            ++ (if ([] : List (String × String)).isEmpty then ""
                else "?" ++ urlencode ([] : List (String × String)))
            ++ requestPayload
              (some [("order_type", Val.vstr "market_order"), ("size", Val.vnum 1),
                     ("side", Val.vstr "sell"), ("product_id", Val.vnum 27)]))))
    ∧ delta_sign "apisecret" "POST" "/v2/orders" "" "" "1700000000"
      = delta_sign "apisecret" "POST" "/v2/orders" "" "" "1700000000" :=
  ⟨claim_c5_request_signature.1 "apisecret" "POST" "/v2/orders" []
      (some [("order_type", Val.vstr "market_order"), ("size", Val.vnum 1),
             ("side", Val.vstr "sell"), ("product_id", Val.vnum 27)]) "1700000000",
   claim_c5_request_signature.2 "POST" "/v2/orders" "" "" "1700000000" "apisecret"
     "POST" "/v2/orders" "" "" "1700000000" "apisecret" rfl rfl rfl rfl rfl rfl⟩

end StrangleBot
